import Mathlib

/-!
Verification of the ingestion-and-conversion orchestration loop of the
repository (src/main.py): source fetching from an object store, per-document
conversion via a pre-loaded engine, an accelerator-memory guard, and the
sequential batch orchestrator.

The Python code is shallowly embedded as pure Lean functions.  External
collaborators (the object store, the conversion engine, the filesystem) are
modelled as explicit oracles or state threaded through the functions:

* the store listing call `s3.list_objects_v2` is an `Except Unit (Option
  (List String))` — `error` for a raised exception, `ok none` for a response
  without a Contents field, `ok (some keys)` for one page of keys;
* `s3.download_file` is an oracle `String → Bool` saying whether the
  download of a key succeeds;
* the local filesystem is the list of paths that exist; a successful
  download adds the target path;
* the conversion engine `converter(pdf_path)` together with
  `text_from_rendered` is an oracle `String → Option ConvOutput` — `none`
  models a raised exception;
* CUDA is a sampled snapshot (availability, total and reserved bytes);
  the Python float division `reserved / total` compared against the literal
  `0.66` is modelled by exact rational arithmetic (for the ratios of
  interest the IEEE and rational comparisons agree);
* `print` side effects are dropped; the observable facts they witness
  (which document failed, the completion banner) are carried in the
  returned structures instead.

Directory constants drop the `os.getcwd()` component: paths are modelled
relative to the working directory.
-/

namespace CfaEdu

/-- Model of os.path.basename for POSIX paths: the part after the last slash. -/
def basename (p : String) : String :=
  String.mk ((p.data.reverse.takeWhile (fun c => c ≠ '/')).reverse)

/-- Model of str.lower, character by character. -/
def lowerStr (s : String) : String := String.mk (s.data.map Char.toLower)

/-- Model of str.endswith on the underlying character lists. -/
def endsWithStr (s t : String) : Bool := t.data.isSuffixOf s.data

/-- Model of the stem part of os.path.splitext: drop the suffix starting at
the last dot, unless every character before that dot is itself a dot (Python
treats a leading run of dots of the basename as not starting an extension). -/
def splitextStem (s : String) : String :=
  let cs := s.data
  match cs.reverse.findIdx? (fun c => c = '.') with
  | none => s
  | some r =>
      let dotIdx := cs.length - 1 - r
      if (cs.take dotIdx).any (fun c => c ≠ '.') then String.mk (cs.take dotIdx)
      else s

/-- LOCAL_PDF_DIR from src/main.py, relative to the working directory. -/
def LOCAL_PDF_DIR : String := "data/pdfs"

/-- OUTPUT_DIR from src/main.py, relative to the working directory. -/
def OUTPUT_DIR : String := "data/ocr_results"

/-- The deterministic local path download_pdfs derives for a store key:
os.path.join(LOCAL_PDF_DIR, os.path.basename(key)). -/
def localPath (key : String) : String := LOCAL_PDF_DIR ++ "/" ++ basename key

/-- The predicate download_pdfs filters keys with:
key.lower().endswith(".pdf"). -/
def isPdfKey (key : String) : Bool := endsWithStr (lowerStr key) ".pdf"

/-- The environment download_pdfs runs against: the result of the single
list_objects_v2 call and the per-key download outcome. -/
structure FetchEnv where
  listing : Except Unit (Option (List String))
  downloadOk : String → Bool

/-- The observable state and result of a download_pdfs run: the returned
pdf_files list, the local filesystem after the run, and the keys for which
a network download was attempted, in order. -/
structure FetchOut where
  pdf_files : List String
  fs : List String
  downloads : List String
  deriving Repr, DecidableEq

/-- Loop body of download_pdfs for one listed key (src/main.py lines 62-75):
filter on the extension, then either skip (path exists), download and record
the path, or log the download error and drop the key. -/
def fetchStep (env : FetchEnv) (acc : FetchOut) (key : String) : FetchOut :=
  if isPdfKey key then
    let local_path := localPath key
    if local_path ∈ acc.fs then
      { acc with pdf_files := acc.pdf_files ++ [local_path] }
    else if env.downloadOk key then
      { pdf_files := acc.pdf_files ++ [local_path]
        fs := local_path :: acc.fs
        downloads := acc.downloads ++ [key] }
    else
      { acc with downloads := acc.downloads ++ [key] }
  else acc

/-- download_pdfs (src/main.py lines 49-79): one list_objects_v2 call; a
listing exception or an absent Contents field yields an empty result; else
the keys of that single page are folded through fetchStep. -/
def download_pdfs (env : FetchEnv) (fs0 : List String) : FetchOut :=
  match env.listing with
  | .error _ => ⟨[], fs0, []⟩
  | .ok none => ⟨[], fs0, []⟩
  | .ok (some contents) => contents.foldl (fetchStep env) ⟨[], fs0, []⟩

/-- An object store with a paginated listing: list_objects_v2 without a
continuation token returns only the head page. -/
structure Store where
  pages : List (List String)

/-- Every key under the prefix, across all pages. -/
def Store.allKeys (s : Store) : List String := s.pages.flatten

/-- The single page the code's one list_objects_v2 call observes. -/
def Store.firstPage (s : Store) : Option (List String) := s.pages.head?

/-- What the conversion engine plus text_from_rendered yields on success:
the full text and the image mapping (file name to byte content). -/
structure ConvOutput where
  text : String
  images : List (String × List Nat)
  deriving Repr, DecidableEq

/-- Content written to a local file: image bytes or markdown text. -/
inductive FileContent
  | bin (bytes : List Nat)
  | txt (s : String)
  deriving Repr, DecidableEq

/-- The observable effects of one ocr_with_marker call: the per-document
output directory it creates, the files it writes in order, and whether the
conversion succeeded (false means the exception was caught and logged). -/
structure OcrResult where
  createdDir : String
  written : List (String × FileContent)
  ok : Bool
  deriving Repr, DecidableEq

/-- The stem the worker derives: os.path.splitext(os.path.basename(p))[0]. -/
def pdfNameOf (p : String) : String := splitextStem (basename p)

/-- The per-document output directory: os.path.join(OUTPUT_DIR, pdf_name). -/
def outDirOf (p : String) : String := OUTPUT_DIR ++ "/" ++ pdfNameOf p

/-- ocr_with_marker (src/main.py lines 82-107): derive the base name, create
the output directory, then convert; on success write every image into the
directory and the text as pdf_name.md; on an engine exception catch, log the
document identity and write nothing. -/
def ocr_with_marker (convert : String → Option ConvOutput) (pdf_path : String) : OcrResult :=
  let pdf_name := pdfNameOf pdf_path
  let out_dir := OUTPUT_DIR ++ "/" ++ pdf_name
  match convert pdf_path with
  | none => ⟨out_dir, [], false⟩
  | some r =>
      let imgWrites := r.images.map (fun ni => (out_dir ++ "/" ++ ni.1, FileContent.bin ni.2))
      let md_path := out_dir ++ "/" ++ (pdf_name ++ ".md")
      ⟨out_dir, imgWrites ++ [(md_path, FileContent.txt r.text)], true⟩

/-- A sampled CUDA snapshot: availability, total_memory of device 0 and the
currently reserved bytes. -/
structure VramState where
  available : Bool
  total_memory : Nat
  reserved : Nat
  deriving Repr, DecidableEq

/-- The usage ratio the guard computes: reserved_memory / total_memory,
with the Python float division modelled as exact rational division. -/
def usageRatio (st : VramState) : ℚ := (st.reserved : ℚ) / (st.total_memory : ℚ)

/-- check_and_clear_vram (src/main.py lines 110-127): no-op without CUDA;
otherwise clear the cache exactly when usage_ratio > 0.66.  The returned
Bool says whether a reclamation pass (gc.collect plus empty_cache) ran. -/
def check_and_clear_vram (st : VramState) : Bool :=
  if st.available = false then false
  else decide (usageRatio st > 66 / 100)

/-- One observable step of the orchestrator loop: a conversion of a given
document (with its outcome) or a resource-guard invocation. -/
inductive Event
  | convertCall (path : String) (ok : Bool)
  | guardCall
  deriving Repr, DecidableEq

/-- Observable outcome of a main run: the list discovery returned, the
ordered event trace of the processing loop, and each document's result in
processing order. -/
structure MainResult where
  pdfs : List String
  trace : List Event
  docs : List (String × OcrResult)
  deriving Repr, DecidableEq

/-- One iteration of the main loop: ocr_with_marker then check_and_clear_vram
(src/main.py lines 137-141), appended to the accumulated trace and results. -/
def mainStep (convert : String → Option ConvOutput)
    (acc : List Event × List (String × OcrResult)) (p : String) :
    List Event × List (String × OcrResult) :=
  let r := ocr_with_marker convert p
  (acc.1 ++ [Event.convertCall p r.ok, Event.guardCall], acc.2 ++ [(p, r)])

/-- main (src/main.py lines 130-143): discover, stop if nothing was found,
else process each document in order, running the guard after every file. -/
def main (env : FetchEnv) (fs0 : List String) (convert : String → Option ConvOutput) :
    MainResult :=
  let pdfs := (download_pdfs env fs0).pdf_files
  if pdfs = [] then ⟨pdfs, [], []⟩
  else
    let s := pdfs.foldl (mainStep convert) ([], [])
    ⟨pdfs, s.1, s.2⟩

/-- The documents main reports as failed, in order: those whose conversion
was caught (the code logs one error line per such document). -/
def failuresOf (m : MainResult) : List String :=
  (m.docs.filter (fun d => !d.2.ok)).map (fun d => d.1)

/-! Lemmas about the orchestrator loop. -/

lemma foldl_mainStep_eq (convert : String → Option ConvOutput) (l : List String)
    (acc : List Event × List (String × OcrResult)) :
    l.foldl (mainStep convert) acc =
      (acc.1 ++ l.flatMap
          (fun p => [Event.convertCall p (ocr_with_marker convert p).ok, Event.guardCall]),
        acc.2 ++ l.map (fun p => (p, ocr_with_marker convert p))) := by
  induction l generalizing acc with
  | nil => simp
  | cons x xs ih => simp [mainStep, ih]

lemma main_eq (env : FetchEnv) (fs0 : List String) (convert : String → Option ConvOutput) :
    main env fs0 convert =
      ⟨(download_pdfs env fs0).pdf_files,
        (download_pdfs env fs0).pdf_files.flatMap
          (fun p => [Event.convertCall p (ocr_with_marker convert p).ok, Event.guardCall]),
        (download_pdfs env fs0).pdf_files.map (fun p => (p, ocr_with_marker convert p))⟩ := by
  unfold main
  by_cases h : (download_pdfs env fs0).pdf_files = []
  · simp [h]
  · simp [h, foldl_mainStep_eq]

lemma ocr_ok_iff (convert : String → Option ConvOutput) (p : String) :
    (ocr_with_marker convert p).ok = (convert p).isSome := by
  cases h : convert p <;> simp [ocr_with_marker, h]

/-- C8: the orchestrator processes the documents in exactly the order
discovery returned them, and after every document — converted successfully
or not — the resource guard runs exactly once before the next document. -/
theorem processing_order_and_guard (env : FetchEnv) (fs0 : List String)
    (convert : String → Option ConvOutput) :
    (main env fs0 convert).trace
        = (main env fs0 convert).pdfs.flatMap
            (fun p => [Event.convertCall p (ocr_with_marker convert p).ok, Event.guardCall]) ∧
    (main env fs0 convert).docs
        = (main env fs0 convert).pdfs.map (fun p => (p, ocr_with_marker convert p)) := by
  rw [main_eq]
  exact ⟨rfl, rfl⟩

/-- C5: when the store listing call raises, discovery returns an empty
result (the exception is caught, not propagated), and the run then
processes no document and never invokes the conversion engine. -/
theorem listing_failure_no_work (env : FetchEnv) (fs0 : List String)
    (convert : String → Option ConvOutput) (h : env.listing = Except.error ()) :
    download_pdfs env fs0 = ⟨[], fs0, []⟩ ∧
    (main env fs0 convert).docs = [] ∧
    (main env fs0 convert).trace = [] := by
  have hd : download_pdfs env fs0 = ⟨[], fs0, []⟩ := by
    unfold download_pdfs
    rw [h]
  refine ⟨hd, ?_, ?_⟩ <;> simp [main_eq, hd]

/-- Witness for C5 at a concrete failing listing. -/
theorem listing_failure_no_work_witness :
    download_pdfs ⟨Except.error (), fun _ => true⟩ ["data/pdfs/old.pdf"]
        = ⟨[], ["data/pdfs/old.pdf"], []⟩ ∧
    (main ⟨Except.error (), fun _ => true⟩ ["data/pdfs/old.pdf"] (fun _ => none)).trace = [] :=
  ⟨(listing_failure_no_work ⟨Except.error (), fun _ => true⟩ ["data/pdfs/old.pdf"]
      (fun _ => none) rfl).1,
    (listing_failure_no_work ⟨Except.error (), fun _ => true⟩ ["data/pdfs/old.pdf"]
      (fun _ => none) rfl).2.2⟩

/-- C7: every file the worker writes for a document lives directly in that
document's derived output directory OUTPUT_DIR/<stem>/, and on success the
text always lands at OUTPUT_DIR/<stem>/<stem>.md. -/
theorem output_path_determinism (convert : String → Option ConvOutput) (p : String) :
    (∀ w ∈ (ocr_with_marker convert p).written,
        ∃ name, w.1 = OUTPUT_DIR ++ "/" ++ pdfNameOf p ++ "/" ++ name) ∧
    (∀ r, convert p = some r →
        (OUTPUT_DIR ++ "/" ++ pdfNameOf p ++ "/" ++ (pdfNameOf p ++ ".md"),
          FileContent.txt r.text) ∈ (ocr_with_marker convert p).written) := by
  cases h : convert p with
  | none =>
      refine ⟨?_, ?_⟩
      · intro w hw
        simp [ocr_with_marker, h] at hw
      · intro r hr
        cases hr
  | some r =>
      refine ⟨?_, ?_⟩
      · intro w hw
        simp only [ocr_with_marker, h, List.mem_append, List.mem_map,
          List.mem_singleton] at hw
        rcases hw with ⟨ni, _, rfl⟩ | rfl
        · exact ⟨ni.1, rfl⟩
        · exact ⟨pdfNameOf p ++ ".md", rfl⟩
      · intro r2 hr2
        cases hr2
        simp [ocr_with_marker, h]

/-- Witness for C7: converting data/pdfs/report.pdf writes the markdown to
data/ocr_results/report/report.md. -/
theorem output_path_determinism_witness :
    ("data/ocr_results/report/report.md", FileContent.txt "T")
      ∈ (ocr_with_marker (fun _ => some ⟨"T", [("fig.png", [0])]⟩)
          "data/pdfs/report.pdf").written := by
  have h := (output_path_determinism (fun _ => some ⟨"T", [("fig.png", [0])]⟩)
      "data/pdfs/report.pdf").2 ⟨"T", [("fig.png", [0])]⟩ rfl
  have e : OUTPUT_DIR ++ "/" ++ pdfNameOf "data/pdfs/report.pdf" ++ "/"
      ++ (pdfNameOf "data/pdfs/report.pdf" ++ ".md") = "data/ocr_results/report/report.md" := by
    decide
  rw [e] at h
  exact h

/-- C9: the worker creates the per-document output directory before calling
the engine, so even a document whose conversion fails leaves an (empty)
output directory behind. -/
theorem outdir_created_on_failure (convert : String → Option ConvOutput) (p : String) :
    (ocr_with_marker convert p).createdDir = OUTPUT_DIR ++ "/" ++ pdfNameOf p ∧
    (convert p = none →
      (ocr_with_marker convert p).ok = false ∧ (ocr_with_marker convert p).written = []) := by
  cases h : convert p <;> simp [ocr_with_marker, h]

/-- Witness for C9 with an always-failing engine. -/
theorem outdir_created_on_failure_witness :
    (ocr_with_marker (fun _ => none) "data/pdfs/report.pdf").createdDir
        = "data/ocr_results/report" ∧
    (ocr_with_marker (fun _ => none) "data/pdfs/report.pdf").ok = false := by
  have h := outdir_created_on_failure (fun _ => none) "data/pdfs/report.pdf"
  refine ⟨?_, (h.2 rfl).1⟩
  rw [h.1]
  decide

/-! Lemmas about the discovery fold. -/

lemma foldl_fetch_pdf_files (env : FetchEnv) (hdl : ∀ k, env.downloadOk k = true)
    (l : List String) (acc : FetchOut) :
    (l.foldl (fetchStep env) acc).pdf_files
      = acc.pdf_files ++ (l.filter isPdfKey).map localPath := by
  induction l generalizing acc with
  | nil => simp
  | cons x xs ih =>
    rw [List.foldl_cons, ih]
    by_cases hx : isPdfKey x = true
    · by_cases hm : localPath x ∈ acc.fs
      · simp [fetchStep, hx, hm, List.filter_cons]
      · simp [fetchStep, hx, hm, hdl x, List.filter_cons]
    · simp [fetchStep, hx, List.filter_cons]

lemma fs_sub_fetchStep (env : FetchEnv) (acc : FetchOut) (x : String) :
    acc.fs ⊆ (fetchStep env acc x).fs := by
  unfold fetchStep
  by_cases hx : isPdfKey x = true
  · by_cases hm : localPath x ∈ acc.fs
    · simp [hx, hm]
    · by_cases hd : env.downloadOk x = true
      · simp only [hx, hm, hd, if_true, if_false, if_neg hm]
        exact List.subset_cons_self _ _
      · simp [hx, hm, hd]
  · simp [hx]

lemma fs_sub_foldl_fetch (env : FetchEnv) (l : List String) (acc : FetchOut) :
    acc.fs ⊆ (l.foldl (fetchStep env) acc).fs := by
  induction l generalizing acc with
  | nil => exact fun a ha => ha
  | cons x xs ih => exact fun a ha => ih (fetchStep env acc x) (fs_sub_fetchStep env acc x ha)

lemma mem_fs_foldl_fetch (env : FetchEnv) (l : List String) (acc : FetchOut) (k : String)
    (hk : k ∈ l) (hpdf : isPdfKey k = true) (hdl : env.downloadOk k = true) :
    localPath k ∈ (l.foldl (fetchStep env) acc).fs := by
  induction l generalizing acc with
  | nil => cases hk
  | cons x xs ih =>
    rcases List.mem_cons.mp hk with rfl | hk2
    · rw [List.foldl_cons]
      refine fs_sub_foldl_fetch env xs _ ?_
      unfold fetchStep
      by_cases hm : localPath k ∈ acc.fs
      · simp [hpdf, hm]
      · simp [hpdf, hm, hdl]
    · exact ih (fetchStep env acc x) hk2

lemma fetch_skip_inv (env : FetchEnv) (l : List String) (acc : FetchOut) (k : String)
    (h1 : localPath k ∈ acc.fs) (h2 : k ∉ acc.downloads) :
    localPath k ∈ (l.foldl (fetchStep env) acc).fs ∧
      k ∉ (l.foldl (fetchStep env) acc).downloads := by
  induction l generalizing acc with
  | nil => exact ⟨h1, h2⟩
  | cons x xs ih =>
    rw [List.foldl_cons]
    refine ih (fetchStep env acc x) ?_ ?_
    · exact fs_sub_fetchStep env acc x h1
    · unfold fetchStep
      by_cases hx : isPdfKey x = true
      · by_cases hm : localPath x ∈ acc.fs
        · simpa [hx, hm] using h2
        · have hne : x ≠ k := by
            rintro rfl
            exact hm h1
          by_cases hd : env.downloadOk x = true
          · simp only [hx, hm, hd, if_true, if_false, if_neg hm]
            simpa [List.mem_append] using ⟨h2, fun e => hne e.symm⟩
          · simp only [hx, hm, hd, if_true, if_false, if_neg hm]
            simpa [List.mem_append] using ⟨h2, fun e => hne e.symm⟩
      · simpa [hx] using h2

lemma foldl_fetch_all_present (env : FetchEnv) (l : List String) (acc : FetchOut)
    (h : ∀ k ∈ l, isPdfKey k = true → localPath k ∈ acc.fs) :
    l.foldl (fetchStep env) acc
      = ⟨acc.pdf_files ++ (l.filter isPdfKey).map localPath, acc.fs, acc.downloads⟩ := by
  induction l generalizing acc with
  | nil => simp
  | cons x xs ih =>
    rw [List.foldl_cons]
    by_cases hx : isPdfKey x = true
    · have hm : localPath x ∈ acc.fs := h x (List.mem_cons_self x xs) hx
      have hstep : fetchStep env acc x
          = { acc with pdf_files := acc.pdf_files ++ [localPath x] } := by
        simp [fetchStep, hx, hm]
      rw [hstep, ih]
      · simp [List.filter_cons, hx]
      · intro k hk hkp
        exact h k (List.mem_cons_of_mem x hk) hkp
    · have hstep : fetchStep env acc x = acc := by
        simp [fetchStep, hx]
      rw [hstep, ih]
      · simp [List.filter_cons, hx]
      · intro k hk hkp
        exact h k (List.mem_cons_of_mem x hk) hkp

/-- C6: with every fetch succeeding, the working set is exactly the listed
keys whose lowercased form ends in .pdf, in listing order, mapped to their
local paths. -/
theorem extension_filtering (env : FetchEnv) (contents : List String) (fs0 : List String)
    (hl : env.listing = Except.ok (some contents)) (hdl : ∀ k, env.downloadOk k = true) :
    (download_pdfs env fs0).pdf_files = (contents.filter isPdfKey).map localPath := by
  unfold download_pdfs
  rw [hl]
  rw [foldl_fetch_pdf_files env hdl]
  simp

/-- Witness for C6: the listing a.pdf, b.PDF, c.txt yields exactly the
local paths of a.pdf and b.PDF. -/
theorem extension_filtering_witness :
    (download_pdfs ⟨Except.ok (some ["a.pdf", "b.PDF", "c.txt"]), fun _ => true⟩ []).pdf_files
      = ["data/pdfs/a.pdf", "data/pdfs/b.PDF"] := by
  rw [extension_filtering ⟨Except.ok (some ["a.pdf", "b.PDF", "c.txt"]), fun _ => true⟩
    ["a.pdf", "b.PDF", "c.txt"] [] rfl (fun _ => rfl)]
  decide

/-- C3: discovery is idempotent over the local directory: a key whose local
path already exists is included without any fetch, and — all fetches
succeeding — a second run against the resulting directory attempts no
download and returns the same path list. -/
theorem discovery_idempotent (env : FetchEnv) (fs0 : List String)
    (hdl : ∀ k, env.downloadOk k = true) :
    (download_pdfs env (download_pdfs env fs0).fs).downloads = [] ∧
    (download_pdfs env (download_pdfs env fs0).fs).pdf_files
        = (download_pdfs env fs0).pdf_files ∧
    (∀ contents k, env.listing = Except.ok (some contents) → k ∈ contents →
      isPdfKey k = true → localPath k ∈ fs0 →
        localPath k ∈ (download_pdfs env fs0).pdf_files ∧
        k ∉ (download_pdfs env fs0).downloads) := by
  have hkey : ∀ contents k, env.listing = Except.ok (some contents) → k ∈ contents →
      isPdfKey k = true → localPath k ∈ fs0 →
        localPath k ∈ (download_pdfs env fs0).pdf_files ∧
        k ∉ (download_pdfs env fs0).downloads := by
    intro contents k hl hk hkp hfs
    unfold download_pdfs
    rw [hl]
    constructor
    · rw [foldl_fetch_pdf_files env hdl]
      simp only [List.nil_append, List.mem_map]
      exact ⟨k, List.mem_filter.mpr ⟨hk, hkp⟩, rfl⟩
    · exact (fetch_skip_inv env contents ⟨[], fs0, []⟩ k hfs (by simp)).2
  have hmain : (download_pdfs env (download_pdfs env fs0).fs).downloads = [] ∧
      (download_pdfs env (download_pdfs env fs0).fs).pdf_files
        = (download_pdfs env fs0).pdf_files := by
    match he : env.listing with
    | .error u =>
        have hd : ∀ g, download_pdfs env g = ⟨[], g, []⟩ := by
          intro g
          unfold download_pdfs
          rw [he]
        rw [hd fs0, hd]
        exact ⟨rfl, rfl⟩
    | .ok none =>
        have hd : ∀ g, download_pdfs env g = ⟨[], g, []⟩ := by
          intro g
          unfold download_pdfs
          rw [he]
        rw [hd fs0, hd]
        exact ⟨rfl, rfl⟩
    | .ok (some contents) =>
        have hd : ∀ g, download_pdfs env g = contents.foldl (fetchStep env) ⟨[], g, []⟩ := by
          intro g
          unfold download_pdfs
          rw [he]
        rw [hd fs0, hd]
        have hpresent : ∀ k ∈ contents, isPdfKey k = true →
            localPath k ∈ (FetchOut.mk [] (contents.foldl (fetchStep env) ⟨[], fs0, []⟩).fs []).fs :=
          fun k hk hkp => mem_fs_foldl_fetch env contents _ k hk hkp (hdl k)
        rw [foldl_fetch_all_present env contents _ hpresent]
        refine ⟨rfl, ?_⟩
        rw [foldl_fetch_pdf_files env hdl]
  exact ⟨hmain.1, hmain.2, hkey⟩

/-- Witness for C3: one key, fresh local directory — the first run fetches
a.pdf, the second run fetches nothing and returns the same paths. -/
theorem discovery_idempotent_witness :
    (download_pdfs ⟨Except.ok (some ["a.pdf"]), fun _ => true⟩ []).downloads = ["a.pdf"] ∧
    (download_pdfs ⟨Except.ok (some ["a.pdf"]), fun _ => true⟩
        (download_pdfs ⟨Except.ok (some ["a.pdf"]), fun _ => true⟩ []).fs).downloads = [] ∧
    (download_pdfs ⟨Except.ok (some ["a.pdf"]), fun _ => true⟩
        (download_pdfs ⟨Except.ok (some ["a.pdf"]), fun _ => true⟩ []).fs).pdf_files
      = (download_pdfs ⟨Except.ok (some ["a.pdf"]), fun _ => true⟩ []).pdf_files :=
  ⟨by decide,
    (discovery_idempotent ⟨Except.ok (some ["a.pdf"]), fun _ => true⟩ [] (fun _ => rfl)).1,
    (discovery_idempotent ⟨Except.ok (some ["a.pdf"]), fun _ => true⟩ [] (fun _ => rfl)).2.1⟩

/-- C10: two distinct listed keys with the same base name collide on one
local path: the first occurrence is downloaded, the second skips the fetch
because the file now exists, the same path appears twice in the result, and
the orchestrator therefore converts that one local document twice with
identical (overwritten) outputs. -/
theorem duplicate_basename_overwrite (env : FetchEnv) (k1 k2 : String) (fs0 : List String)
    (convert : String → Option ConvOutput)
    (hl : env.listing = Except.ok (some [k1, k2]))
    (_hne : k1 ≠ k2)
    (hb : basename k1 = basename k2)
    (h1 : isPdfKey k1 = true) (h2 : isPdfKey k2 = true)
    (hd : env.downloadOk k1 = true)
    (hfs : localPath k1 ∉ fs0) :
    (download_pdfs env fs0).pdf_files = [localPath k1, localPath k1] ∧
    (download_pdfs env fs0).downloads = [k1] ∧
    (main env fs0 convert).docs
      = [(localPath k1, ocr_with_marker convert (localPath k1)),
          (localPath k1, ocr_with_marker convert (localPath k1))] := by
  have hlp : localPath k2 = localPath k1 := by
    unfold localPath
    rw [hb]
  have hfold : download_pdfs env fs0
      = ⟨[localPath k1, localPath k1], localPath k1 :: fs0, [k1]⟩ := by
    unfold download_pdfs
    rw [hl]
    show [k1, k2].foldl (fetchStep env) ⟨[], fs0, []⟩ = _
    have s1 : fetchStep env ⟨[], fs0, []⟩ k1
        = ⟨[localPath k1], localPath k1 :: fs0, [k1]⟩ := by
      simp [fetchStep, h1, hfs, hd]
    have s2 : fetchStep env ⟨[localPath k1], localPath k1 :: fs0, [k1]⟩ k2
        = ⟨[localPath k1, localPath k1], localPath k1 :: fs0, [k1]⟩ := by
      simp [fetchStep, h2, hlp]
    rw [List.foldl_cons, s1, List.foldl_cons, s2, List.foldl_nil]
  refine ⟨by rw [hfold], by rw [hfold], ?_⟩
  rw [main_eq, hfold]
  rfl

/-- Witness for C10 at keys x/doc.pdf and y/doc.pdf. -/
theorem duplicate_basename_overwrite_witness :
    (download_pdfs ⟨Except.ok (some ["x/doc.pdf", "y/doc.pdf"]), fun _ => true⟩ []).pdf_files
        = [localPath "x/doc.pdf", localPath "x/doc.pdf"] ∧
    (download_pdfs ⟨Except.ok (some ["x/doc.pdf", "y/doc.pdf"]), fun _ => true⟩ []).downloads
        = ["x/doc.pdf"] :=
  ⟨(duplicate_basename_overwrite ⟨Except.ok (some ["x/doc.pdf", "y/doc.pdf"]), fun _ => true⟩
      "x/doc.pdf" "y/doc.pdf" [] (fun _ => none) rfl (by decide) (by decide) (by decide)
      (by decide) rfl (by decide)).1,
    (duplicate_basename_overwrite ⟨Except.ok (some ["x/doc.pdf", "y/doc.pdf"]), fun _ => true⟩
      "x/doc.pdf" "y/doc.pdf" [] (fun _ => none) rfl (by decide) (by decide) (by decide)
      (by decide) rfl (by decide)).2.1⟩

/-- C1: the single list_objects_v2 call consumes only the first page of a
truncated listing, so a matching key on a later page never enters the
working set, although the fully drained listing would include it. -/
theorem pagination_single_page_truncation :
    "a.pdf" ∈ Store.allKeys ⟨[["notes.txt"], ["a.pdf"]]⟩ ∧
    isPdfKey "a.pdf" = true ∧
    (download_pdfs ⟨Except.ok (Store.firstPage ⟨[["notes.txt"], ["a.pdf"]]⟩), fun _ => true⟩
        []).pdf_files = [] ∧
    (download_pdfs ⟨Except.ok (some (Store.allKeys ⟨[["notes.txt"], ["a.pdf"]]⟩)),
        fun _ => true⟩ []).pdf_files = [localPath "a.pdf"] := by
  decide

/-! Lemmas for failure isolation. -/

lemma failures_map_filter (convert : String → Option ConvOutput) (l : List String) :
    ((l.map (fun p => (p, ocr_with_marker convert p))).filter
        (fun d => !d.2.ok)).map (fun d => d.1)
      = l.filter (fun p => !(ocr_with_marker convert p).ok) := by
  induction l with
  | nil => rfl
  | cons x xs ih =>
    by_cases hx : (ocr_with_marker convert x).ok = true
    · simp [List.filter_cons, hx, ih]
    · simp [List.filter_cons, hx, ih]

lemma filter_eq_singleton_of_count_one {α : Type} [DecidableEq α] (l : List α) (a : α)
    (p : α → Bool) (h1 : l.count a = 1) (hpa : p a = true)
    (h3 : ∀ b ∈ l, b ≠ a → p b = false) :
    l.filter p = [a] := by
  induction l with
  | nil => simp at h1
  | cons x xs ih =>
    by_cases hx : x = a
    · subst hx
      have h0 : xs.count x = 0 := by
        rw [List.count_cons_self] at h1
        omega
      have hnx : x ∉ xs := List.count_eq_zero.mp h0
      have hxs : xs.filter p = [] := by
        rw [List.filter_eq_nil_iff]
        intro b hb
        have hbne : b ≠ x := fun e => hnx (e ▸ hb)
        simp [h3 b (List.mem_cons_of_mem x hb) hbne]
      simp [List.filter_cons, hpa, hxs]
    · have hpx : p x = false := h3 x (List.mem_cons_self x xs) hx
      have h1x : xs.count a = 1 := by
        rw [List.count_cons] at h1
        simpa [hx] using h1
      rw [List.filter_cons]
      simp only [hpx, Bool.false_eq_true, if_false]
      exact ih h1x (fun b hb hbne => h3 b (List.mem_cons_of_mem x hb) hbne)

/-- C2: when exactly one discovered document has a failing conversion, the
failure is absorbed inside the worker (its result is total, with ok =
false), that document is the only reported failure, and every other
document still yields its full per-document result. -/
theorem conversion_failure_isolation (env : FetchEnv) (fs0 : List String)
    (convert : String → Option ConvOutput) (bad : String)
    (hcount : (main env fs0 convert).pdfs.count bad = 1)
    (hbad : convert bad = none)
    (hrest : ∀ q ∈ (main env fs0 convert).pdfs, q ≠ bad → (convert q).isSome = true) :
    (ocr_with_marker convert bad).ok = false ∧
    failuresOf (main env fs0 convert) = [bad] ∧
    (∀ d ∈ (main env fs0 convert).docs, d.1 ≠ bad →
      d.2.ok = true ∧ d.2 = ocr_with_marker convert d.1) := by
  have hok : (ocr_with_marker convert bad).ok = false := by
    rw [ocr_ok_iff, hbad]
    rfl
  have hdocs : (main env fs0 convert).docs
      = (main env fs0 convert).pdfs.map (fun p => (p, ocr_with_marker convert p)) := by
    rw [main_eq]
  refine ⟨hok, ?_, ?_⟩
  · unfold failuresOf
    rw [hdocs, failures_map_filter]
    exact filter_eq_singleton_of_count_one _ bad _ hcount (by simp [hok])
      (fun q hq hqne => by simp [ocr_ok_iff, hrest q hq hqne])
  · intro d hd hdne
    rw [hdocs] at hd
    rcases List.mem_map.mp hd with ⟨q, hq, rfl⟩
    exact ⟨by rw [ocr_ok_iff]; exact hrest q hq hdne, rfl⟩

/-- Witness for C2: of two discovered documents, only b.pdf fails, and the
run reports exactly that one failure. -/
theorem conversion_failure_isolation_witness :
    failuresOf (main ⟨Except.ok (some ["a.pdf", "b.pdf"]), fun _ => true⟩ []
        (fun p => if p = "data/pdfs/b.pdf" then none else some ⟨"T", []⟩))
      = ["data/pdfs/b.pdf"] :=
  (conversion_failure_isolation ⟨Except.ok (some ["a.pdf", "b.pdf"]), fun _ => true⟩ []
      (fun p => if p = "data/pdfs/b.pdf" then none else some ⟨"T", []⟩)
      "data/pdfs/b.pdf" (by decide) (by decide) (by decide)).2.1

/-- C4 counterexample: at a sampled usage ratio of exactly 0.66 (reserved
66 of total 100) the guard does not trigger, refuting the claim that
reclamation fires at the ratio 0.66. -/
theorem guard_threshold_counterexample :
    usageRatio ⟨true, 100, 66⟩ = 66 / 100 ∧
    check_and_clear_vram ⟨true, 100, 66⟩ = false := by
  constructor <;> norm_num [check_and_clear_vram, usageRatio]

/-- C4 amended: the guard triggers exactly when the sampled ratio strictly
exceeds the constant 0.66 (slightly below two-thirds); over the simulated
ratios 0.50, 0.66, 0.90 it triggers only at 0.90. -/
theorem guard_threshold_amended :
    (∀ st : VramState, st.available = true → 0 < st.total_memory →
      (check_and_clear_vram st = true ↔ 66 * st.total_memory < 100 * st.reserved)) ∧
    check_and_clear_vram ⟨true, 100, 50⟩ = false ∧
    check_and_clear_vram ⟨true, 100, 66⟩ = false ∧
    check_and_clear_vram ⟨true, 100, 90⟩ = true := by
  refine ⟨?_, by norm_num [check_and_clear_vram, usageRatio],
    by norm_num [check_and_clear_vram, usageRatio],
    by norm_num [check_and_clear_vram, usageRatio]⟩
  intro st hA hT
  unfold check_and_clear_vram
  rw [hA]
  simp only [Bool.true_eq_false, if_false, decide_eq_true_eq]
  unfold usageRatio
  have hT2 : (0 : ℚ) < st.total_memory := by exact_mod_cast hT
  rw [gt_iff_lt, div_lt_div_iff₀ (by norm_num) hT2, mul_comm (st.reserved : ℚ) 100]
  exact_mod_cast Iff.rfl

/-- Witness for C4 at a high concrete ratio: 1000 of 1024 reserved
triggers a reclamation pass. -/
theorem guard_threshold_amended_witness :
    check_and_clear_vram ⟨true, 1024, 1000⟩ = true :=
  (guard_threshold_amended.1 ⟨true, 1024, 1000⟩ rfl (by norm_num)).mpr (by norm_num)

end CfaEdu
